import Mathlib

/-!
Verification development for the article-fetching pipeline in
`fetching/fetch-article.py` (SARS-CoV-2-coverage repository).

The Python source is shallowly embedded: pure functions become Lean
functions, Python `assert` failures become `Except.error`, Python `None`
returns become `Option.none`, and the producer/consumer queue becomes an
explicit step relation. Python truthiness of optional strings is modelled
by `pyTruthy`, `os.path.dirname`/`os.path.join` by `posixDirname`/
`posixJoin`, `urllib.parse.urlparse` by `pyUrlparse`, and the substring
test `a in b` on strings by `pyIn`.
-/

/-- `s` is the empty string (model of Python falsiness of a `str`). -/
def strIsEmpty (s : String) : Bool := s.data.isEmpty

/-- `s` starts with `pre` (model of `str.startswith`). -/
def strStartsWith (s pre : String) : Bool := pre.data.isPrefixOf s.data

/-- `s` ends with `suf` (model of `str.endswith`). -/
def strEndsWith (s suf : String) : Bool := suf.data.isSuffixOf s.data

/-- Python truthiness of an `Optional[str]`: falsy iff `None` or `''`. -/
def pyTruthy : Option String → Bool
  | none => false
  | some s => !strIsEmpty s

/-- `needle` occurs as a contiguous sublist of `hay` (model of Python `in` on `str`). -/
def listContains : List Char → List Char → Bool
  | [], needle => needle.isEmpty
  | c :: t, needle => needle.isPrefixOf (c :: t) || listContains t needle

/-- Python `needle in hay` for strings. -/
def pyIn (needle hay : String) : Bool :=
  listContains hay.data needle.data

/-- Index of the last `'/'` in the list, if any (model of `str.rfind('/')` when found). -/
def lastSlashIdx : List Char → Option Nat
  | [] => none
  | c :: t =>
    match lastSlashIdx t with
    | some k => some (k + 1)
    | none => if c = '/' then some 0 else none

/-- Drop trailing `'/'` characters (model of `str.rstrip('/')`). -/
def dropTrailingSlashes (cs : List Char) : List Char :=
  (cs.reverse.dropWhile (· = '/')).reverse

/-- Model of `posixpath.dirname`: everything up to and including the last `'/'`,
with trailing slashes stripped unless the head is all slashes. -/
def posixDirname (p : String) : String :=
  match lastSlashIdx p.data with
  | none => ""
  | some k =>
    let head := p.data.take (k + 1)
    if head.all (· = '/') then String.mk head else String.mk (dropTrailingSlashes head)

/-- Model of `posixpath.join` for two arguments. -/
def posixJoin (a b : String) : String :=
  if strStartsWith b "/" then b
  else if strIsEmpty a || strEndsWith a "/" then a ++ b
  else a ++ "/" ++ b

/-- Characters allowed in a URL scheme after the first (CPython `scheme_chars`). -/
def isSchemeChar (c : Char) : Bool :=
  c.isAlphanum || c = '+' || c = '-' || c = '.'

/-- The six components returned by `urllib.parse.urlparse`. -/
structure PyParseResult where
  scheme : String
  netloc : String
  path : String
  params : String
  query : String
  fragment : String
deriving Repr, DecidableEq

/-- Split off `scheme:` from the front of a URL, as CPython `urlsplit` does:
the part before the first `':'` counts as a scheme iff it is non-empty, its
first character is an ASCII letter and the rest are scheme characters; the
scheme is lowercased. -/
def splitScheme (url : List Char) : String × List Char :=
  match url.findIdx? (· = ':') with
  | none => ("", url)
  | some i =>
    let pre := url.take i
    match pre with
    | [] => ("", url)
    | c0 :: rest =>
      if c0.toNat < 128 && c0.isAlpha && rest.all isSchemeChar then
        (String.mk (pre.map Char.toLower), url.drop (i + 1))
      else ("", url)

/-- Split off `//netloc` from the front of the remainder: the netloc extends to
the first `'/'`, `'?'` or `'#'`. -/
def splitNetloc (rest : List Char) : String × List Char :=
  match rest with
  | '/' :: '/' :: r =>
    let nl := r.takeWhile (fun c => c ≠ '/' && c ≠ '?' && c ≠ '#')
    (String.mk nl, r.drop nl.length)
  | _ => ("", rest)

/-- Split `cs` at the first occurrence of `sep` (model of `str.split(sep, 1)`
when `sep in cs`); returns `(cs, "")` when `sep` is absent. -/
def splitOnce (sep : Char) (cs : List Char) : List Char × List Char :=
  match cs.findIdx? (· = sep) with
  | none => (cs, [])
  | some i => (cs.take i, cs.drop (i + 1))

/-- Model of CPython `urllib.parse._splitparams`: split the params off the last
path segment at the first `';'` at or after the last `'/'`. -/
def splitParams (path : List Char) : List Char × List Char :=
  if path.contains '/' then
    let start := match lastSlashIdx path with | some k => k | none => 0
    match (path.drop start).findIdx? (· = ';') with
    | none => (path, [])
    | some j => (path.take (start + j), path.drop (start + j + 1))
  else splitOnce ';' path

/-- Model of `urllib.parse.urlparse` (scheme, netloc, path, params, query,
fragment; no percent-decoding, fragments allowed). -/
def pyUrlparse (url : String) : PyParseResult :=
  let (scheme, rest) := splitScheme url.data
  let (netloc, rest) := splitNetloc rest
  let (rest, fragment) := splitOnce '#' rest
  let (rest, query) := splitOnce '?' rest
  let (path, params) :=
    if rest.contains ';' then splitParams rest else (rest, [])
  { scheme := scheme, netloc := netloc, path := String.mk path,
    params := String.mk params, query := String.mk query,
    fragment := String.mk fragment }

/-- `LinkFromArticle`: the (scheme, netloc, path) triple kept from parsing a
candidate href; each component is `None` when the parse produced `''`. -/
structure LinkFromArticle where
  scheme : Option String
  netloc : Option String
  path : Option String
deriving Repr, DecidableEq

/-- `ResolvedSubLink`: an absolute resolved link. The Python `__post_init__`
assertion (scheme and netloc truthy, path starts with `'/'`) is modelled in
`mkResolvedSubLink`. -/
structure ResolvedSubLink where
  scheme : String
  netloc : String
  path : String
deriving Repr, DecidableEq

/-- The `ResolvedSubLink` constructor together with its `__post_init__`
assertion: `assert all([scheme, netloc, path.startswith('/')])`. -/
def mkResolvedSubLink (scheme netloc path : String) :
    Except String (Option ResolvedSubLink) :=
  if !strIsEmpty scheme && !strIsEmpty netloc && strStartsWith path "/" then
    .ok (some ⟨scheme, netloc, path⟩)
  else .error "AssertionError: ResolvedSubLink.__post_init__"

/-- `LinkFromArticle.parse_url`: parse a raw href and keep only scheme, netloc
and path; reject when all three are falsy. -/
def LinkFromArticle.parse_url (url : String) : Option LinkFromArticle :=
  let r := pyUrlparse url
  if strIsEmpty r.scheme && strIsEmpty r.netloc && strIsEmpty r.path then none
  else some
    { scheme := if strIsEmpty r.scheme then none else some r.scheme,
      netloc := if strIsEmpty r.netloc then none else some r.netloc,
      path := if strIsEmpty r.path then none else some r.path }

/-- The scheme-defaulting step at the top of `resolve_from`: keep the link's
own scheme when truthy; otherwise inherit the base scheme when the link also
has no netloc, and default to `'https'` when it does. -/
def effectiveScheme (l : LinkFromArticle) (base : PyParseResult) : String :=
  if !pyTruthy l.scheme then
    if !pyTruthy l.netloc then base.scheme else "https"
  else l.scheme.getD ""

/-- `LinkFromArticle.resolve_from`: resolve this link against the parsed base
URL. `Except.error` models a Python `AssertionError`; `.ok none` models a
`None` return (rejection). `re.match('https?', scheme)` anchors at the start
but only requires a *prefix* match, so it holds iff `scheme` starts with
`"http"`. -/
def LinkFromArticle.resolve_from (l : LinkFromArticle) (base : PyParseResult) :
    Except String (Option ResolvedSubLink) :=
  if !strStartsWith (effectiveScheme l base) "http" then .ok none
  else if pyTruthy l.netloc then
    if pyTruthy l.path then
      if !strStartsWith (l.path.getD "") "/" then
        .error "AssertionError: self.path.startswith slash"
      else mkResolvedSubLink (effectiveScheme l base) (l.netloc.getD "") (l.path.getD "")
    else mkResolvedSubLink (effectiveScheme l base) (l.netloc.getD "") "/"
  else if !pyTruthy l.path then .ok none
  else if strStartsWith (l.path.getD "") "/" then
    mkResolvedSubLink (effectiveScheme l base) base.netloc (l.path.getD "")
  else
    mkResolvedSubLink (effectiveScheme l base) base.netloc
      ("/" ++ posixJoin (posixDirname base.path) (l.path.getD ""))

/-- `ResolvedSubLink.into_url`. -/
def ResolvedSubLink.into_url (r : ResolvedSubLink) : String :=
  r.scheme ++ "://" ++ r.netloc ++ r.path

/-- The (scheme, netloc, path) filtering done by `parse_url`, as a function of
the three components alone. -/
def linkOfTriple (scheme netloc path : String) : Option LinkFromArticle :=
  if strIsEmpty scheme && strIsEmpty netloc && strIsEmpty path then none
  else some
    { scheme := if strIsEmpty scheme then none else some scheme,
      netloc := if strIsEmpty netloc then none else some netloc,
      path := if strIsEmpty path then none else some path }

/-- Tag metadata attached to an article (`Tags`): the Python `__init__`
filters falsy entries via `filter_tags` / `filter_single_tag`. -/
structure Tags where
  tags : List String
  meta_description : Option String
  meta_keywords : List String
deriving Repr, DecidableEq

/-- `Tags.filter_single_tag`: keep a tag only when truthy. -/
def filter_single_tag (tag : Option String) : Option String :=
  if pyTruthy tag then tag else none

/-- `Tags.filter_tags`: keep the truthy tags. -/
def filter_tags (tags : List String) : List String :=
  tags.filterMap (fun t => filter_single_tag (some t))

/-- The `Tags` `__init__`. -/
def Tags.build (tags : List String) (meta_description : Option String)
    (meta_keywords : List String) : Tags :=
  ⟨filter_tags tags, filter_single_tag meta_description, filter_tags meta_keywords⟩

/-- The response surface used by article assembly and the drainer: the
`Content-Type` header (`none` when the response carries no such header —
`resp.headers['Content-Type']` then raises `KeyError`), the final URL after
redirects (a string), and that URL's host component. -/
structure PyResponse where
  content_type : Option String
  url : String
  host : String
deriving Repr, DecidableEq

/-- Output of the external `newspaper.Article` extractor for a fetched page:
title, authors, heuristic publish date, body text, the optional
`article`/`published_time` metadata string, and tag metadata. Timestamps are
opaque (`Nat`); a present Python `datetime` is always truthy, so only a
missing date (`none`) is falsy. -/
structure PyArticle where
  title : String
  authors : List String
  publish_date : Option Nat
  meta_published_time : Option String
  text : String
  tags : List String
  meta_description : Option String
  meta_keywords : List String
deriving Repr, DecidableEq

def PAGE_NOT_FOUND_TITLE_MARKER : String := "Page Not Found"

/-- The validated article record built by `NewsArticle.from_response`. -/
structure NewsArticle where
  url : String
  title : String
  authors : List String
  tags : Tags
  links : List ResolvedSubLink
  publish_date : Nat
  text : String
deriving Repr, DecidableEq

/-- The timestamp selection inside `from_response`: start from the
extractor's heuristic `publish_date` and overwrite it with the parsed
`article`/`published_time` metadata value when that lookup chain yields a
truthy string. `dparse` models `dateutil.parser.parse`, returning `none` for
an unparseable string, on which the real call raises `ParserError`; that
raise propagates out of `from_response`, so it is an `Except.error` here. -/
def mostSpecificDate (dparse : String → Option Nat) (art : PyArticle) :
    Except String (Option Nat) :=
  match art.meta_published_time with
  | some ds =>
    if strIsEmpty ds then .ok art.publish_date
    else
      match dparse ds with
      | none => .error "ParserError: dateutil.parser.parse"
      | some d => .ok (some d)
  | none => .ok art.publish_date

/-- `NewsArticle.from_response`, with the external collaborators passed in:
`dparse` models `dateutil.parser.parse` and `links` the resolved sub-links
computed from the page HTML by `LinksOnPage.from_article_html`. Each unmet
validity check returns `.ok none` (a rejection); the two raise paths —
`resp.headers['Content-Type']` on a header-less response and the metadata
date parse — are `Except.error`. -/
def NewsArticle.from_response (dparse : String → Option Nat) (resp : PyResponse)
    (art : PyArticle) (links : List ResolvedSubLink) :
    Except String (Option NewsArticle) :=
  match resp.content_type with
  | none => .error "KeyError: Content-Type"
  | some ct =>
    if !strStartsWith ct "text/html" then .ok none
    else if strIsEmpty art.title || (art.title == PAGE_NOT_FOUND_TITLE_MARKER) then .ok none
    else if art.authors.isEmpty then .ok none
    else
      match mostSpecificDate dparse art with
      | .error e => .error e
      | .ok none => .ok none
      | .ok (some d) =>
        if strIsEmpty art.text then .ok none
        else .ok (some
          { url := resp.url, title := art.title, authors := art.authors,
            tags := Tags.build art.tags art.meta_description art.meta_keywords,
            links := links, publish_date := d, text := art.text })

def TWEET_SHORTENED_LINK_BASE : String := "https://t.co/"

structure TwitterSearchShortenedUrl where
  url : String
deriving Repr, DecidableEq

/-- The `TwitterSearchShortenedUrl` constructor with its `__post_init__`
assertion that the url starts with the t.co prefix. -/
def mkShortenedUrl (url : String) : Except String TwitterSearchShortenedUrl :=
  if strStartsWith url TWEET_SHORTENED_LINK_BASE then .ok ⟨url⟩
  else .error "AssertionError: TwitterSearchShortenedUrl.__post_init__"

/-- `TwitterSearchCursor._extract_t_co_urls`, applied to the hrefs found in
the tweet tables of a results page: hrefs starting with `/` are skipped as
internal; every other href is wrapped in `TwitterSearchShortenedUrl`, whose
constructor assertion aborts the extraction when the t.co prefix is
missing. -/
def extract_t_co_urls : List String → Except String (List TwitterSearchShortenedUrl)
  | [] => .ok []
  | href :: rest =>
    if strStartsWith href "/" then extract_t_co_urls rest
    else
      match mkShortenedUrl href with
      | .error e => .error e
      | .ok u =>
        match extract_t_co_urls rest with
        | .error e => .error e
        | .ok us => .ok (u :: us)

/-- Capacity of the bounded in-flight fetch queue:
`queue.Queue(maxsize=50)`. -/
def FETCH_QUEUE_CAPACITY : Nat := 50

/-- Labels for queue transitions: a producer `put` or a consumer `get` of a
fetch handle. -/
inductive QLabel (α : Type u)
  | put (h : α)
  | get (h : α)
deriving Repr, DecidableEq

/-- One transition of the bounded fetch queue shared by the cursor-paging
producer and the drainer: `put` appends a handle and is enabled only strictly
below capacity (a full queue blocks the producer); `get` removes the oldest
handle and is enabled only on a non-empty queue (an empty queue blocks the
consumer). -/
inductive QueueStep (C : Nat) : List α → QLabel α → List α → Prop
  | put (h : α) (q : List α) : q.length < C → QueueStep C q (.put h) (q ++ [h])
  | get (h : α) (q : List α) : QueueStep C (h :: q) (.get h) q

/-- Queue contents reachable from the initially empty queue by puts and
gets. -/
def QueueReachable (C : Nat) (q : List α) : Prop :=
  Relation.ReflTransGen (fun a b => ∃ lab, QueueStep C a lab b) [] q

/-- Outcome of an in-flight fetch as seen by the drainer: a certificate/TLS
transport failure (`requests.exceptions.SSLError`) or a final response. -/
inductive FetchOutcome
  | sslError
  | ok (resp : PyResponse)
deriving Repr, DecidableEq

def TWITTER_DOMAIN : String := "twitter.com"

/-- The drainer's per-handle filtering of a completed batch: a certificate
failure is skipped with `continue`; a response whose final URL contains the
platform domain (`TWITTER_DOMAIN in resp.url`) is skipped; the remaining
responses are handed to article assembly. -/
def drainSurvivors (outcomes : List FetchOutcome) : List PyResponse :=
  outcomes.filterMap (fun o =>
    match o with
    | .sslError => none
    | .ok resp => if pyIn TWITTER_DOMAIN resp.url then none else some resp)

/-- The articles the drainer yields for one completed batch: the surviving
responses that article assembly accepts. -/
def drainYields (assemble : PyResponse → Option NewsArticle)
    (outcomes : List FetchOutcome) : List NewsArticle :=
  (drainSurvivors outcomes).filterMap assemble

/-- One iteration of the consumer loop's batch collection: the inner
`get(block=False)` loop first drains everything currently in the queue; only
if that drain yielded nothing does the loop perform exactly one blocking
`get`. `available` is the queue content at drain time and `next` the handle a
blocking `get` returns once the producer supplies one. -/
def collectBatch (available : List α) (next : α) : List α :=
  if available.isEmpty then [next] else available

theorem strIsEmpty_eq_false (s : String) (h : s ≠ "") : strIsEmpty s = false := by
  cases s with
  | mk data =>
    cases data with
    | nil => exact absurd rfl h
    | cons c t => rfl

theorem strIsEmpty_false_ne (s : String) (h : strIsEmpty s = false) : s ≠ "" := by
  intro he
  subst he
  simp [strIsEmpty] at h

theorem strStartsWith_slash_append (x : String) : strStartsWith ("/" ++ x) "/" = true := by
  have h : ("/" ++ x).data = '/' :: x.data := String.data_append "/" x
  simp [strStartsWith, h, List.isPrefixOf]

theorem strIsEmpty_eq_false_of_http (s : String)
    (h : strStartsWith s "http" = true) : strIsEmpty s = false := by
  cases s with
  | mk data =>
    cases data with
    | nil => exact absurd h (by decide)
    | cons c t => rfl

theorem pyTruthy_getD (o : Option String) (h : pyTruthy o = true) :
    strIsEmpty (o.getD "") = false := by
  cases o with
  | none => exact absurd h (by decide)
  | some s => simpa [pyTruthy] using h

theorem mkResolvedSubLink_ok (s n p : String) (r : ResolvedSubLink)
    (h : mkResolvedSubLink s n p = .ok (some r)) :
    r = ⟨s, n, p⟩ ∧ strIsEmpty s = false ∧ strIsEmpty n = false ∧
      strStartsWith p "/" = true := by
  unfold mkResolvedSubLink at h
  split at h
  · rename_i hcond
    simp only [Except.ok.injEq, Option.some.injEq] at h
    simp only [Bool.and_eq_true, Bool.not_eq_true'] at hcond
    exact ⟨h.symm, hcond.1.1, hcond.1.2, hcond.2⟩
  · exact absurd h (by simp)

/-- Any constructed result of `resolve_from` came out of `mkResolvedSubLink`
with the effective scheme, so its fields satisfy the constructor invariant. -/
theorem resolve_from_ok_cases (l : LinkFromArticle) (base : PyParseResult)
    (r : ResolvedSubLink) (h : l.resolve_from base = .ok (some r)) :
    r.scheme = effectiveScheme l base ∧ strIsEmpty r.scheme = false ∧
      strIsEmpty r.netloc = false ∧ strStartsWith r.path "/" = true := by
  have hmk : ∀ n p, mkResolvedSubLink (effectiveScheme l base) n p = .ok (some r) →
      r.scheme = effectiveScheme l base ∧ strIsEmpty r.scheme = false ∧
        strIsEmpty r.netloc = false ∧ strStartsWith r.path "/" = true := by
    intro n p hm
    obtain ⟨hr, ha, hb, hcc⟩ := mkResolvedSubLink_ok _ n p r hm
    subst hr
    exact ⟨rfl, ha, hb, hcc⟩
  unfold LinkFromArticle.resolve_from at h
  split at h
  · simp at h
  · split at h
    · split at h
      · split at h
        · simp at h
        · exact hmk _ _ h
      · exact hmk _ _ h
    · split at h
      · simp at h
      · split at h
        · exact hmk _ _ h
        · exact hmk _ _ h

/-- C1 (amended): for a bare-path relative link `p` against a base with an
`http`-prefixed scheme and non-empty netloc, `resolve_from` inherits the base
scheme and netloc and produces the path `'/' ++ posixJoin (posixDirname
base.path) p`; since an absolute base path keeps its leading slash through
`posixDirname`, the re-prefixed path carries a doubled leading slash (for link
`c` against base `https://h/p/q` the result path is `//p/c`, not `/p/c`). -/
theorem resolve_from_bare_path (l : LinkFromArticle) (base : PyParseResult) (p : String)
    (hs : pyTruthy l.scheme = false) (hn : pyTruthy l.netloc = false)
    (hp : l.path = some p) (hpne : p ≠ "")
    (hrel : strStartsWith p "/" = false)
    (hbs : strStartsWith base.scheme "http" = true)
    (hbn : base.netloc ≠ "") :
    l.resolve_from base =
      .ok (some ⟨base.scheme, base.netloc,
        "/" ++ posixJoin (posixDirname base.path) p⟩) := by
  have h1 : strIsEmpty p = false := strIsEmpty_eq_false p hpne
  have h2 : strIsEmpty base.scheme = false := strIsEmpty_eq_false_of_http base.scheme hbs
  have h3 : strIsEmpty base.netloc = false := strIsEmpty_eq_false base.netloc hbn
  have h4 : strStartsWith ("/" ++ posixJoin (posixDirname base.path) p) "/" = true :=
    strStartsWith_slash_append _
  have heff : effectiveScheme l base = base.scheme := by simp [effectiveScheme, hs, hn]
  have hps : pyTruthy l.path = true := by rw [hp]; simp [pyTruthy, h1]
  have hpd : l.path.getD "" = p := by rw [hp]; rfl
  simp [LinkFromArticle.resolve_from, mkResolvedSubLink, heff, hbs, hn, hps, hpd,
    hrel, h2, h3, h4]

/-- C1 (counterexample to the claim as stated): resolving the bare-path link
`c` against base `https://h/p/q` yields path `//p/c`, not the claimed `/p/c`. -/
theorem resolve_from_bare_path_double_slash :
    ((LinkFromArticle.parse_url "c").map
        (fun l => l.resolve_from (pyUrlparse "https://h/p/q")) =
      some (.ok (some ⟨"https", "h", "//p/c"⟩))) ∧
    ("//p/c" : String) ≠ "/p/c" := by
  exact ⟨rfl, by decide⟩

/-- Witness for `resolve_from_bare_path` at link `c` against base
`https://h/p/q`: the produced path is `//p/c`. -/
theorem resolve_from_bare_path_witness :
    LinkFromArticle.resolve_from ⟨none, none, some "c"⟩ (pyUrlparse "https://h/p/q") =
      .ok (some ⟨"https", "h", "//p/c"⟩) := by
  have h := resolve_from_bare_path ⟨none, none, some "c"⟩ (pyUrlparse "https://h/p/q") "c"
    rfl rfl rfl (by decide) (by decide) (by decide) (by decide)
  exact h.trans (by rfl)

/-- C3 (counterexample to the claim as stated): the scheme filter is
`re.match('https?', scheme)`, a prefix match, so the scheme `httpx` — neither
`http` nor `https` — is accepted. -/
theorem resolve_from_accepts_httpx :
    ((LinkFromArticle.parse_url "httpx://h/p").map
        (fun l => l.resolve_from (pyUrlparse "https://base/x")) =
      some (.ok (some ⟨"httpx", "h", "/p"⟩))) ∧
    ("httpx" : String) ≠ "http" ∧ ("httpx" : String) ≠ "https" := by
  exact ⟨rfl, by decide, by decide⟩

/-- C3 (amended): `resolve_from` rejects a link exactly when its effective
scheme (own scheme, else inherited from the base, else the defaulted `https`)
does not start with `"http"`; every accepted link's scheme is the effective
scheme and starts with `"http"`. In particular `mailto` and `javascript`
schemes are rejected, but schemes other than `http`/`https` that begin with
`http` (such as `httpx`) are accepted. -/
theorem resolve_from_scheme_filter (l : LinkFromArticle) (base : PyParseResult) :
    (strStartsWith (effectiveScheme l base) "http" = false →
      l.resolve_from base = .ok none) ∧
    (∀ r : ResolvedSubLink, l.resolve_from base = .ok (some r) →
      r.scheme = effectiveScheme l base ∧
      strStartsWith (effectiveScheme l base) "http" = true) ∧
    (strStartsWith "mailto" "http" = false ∧ strStartsWith "javascript" "http" = false ∧
      strStartsWith "httpx" "http" = true) := by
  refine ⟨?_, ?_, by decide, by decide, by decide⟩
  · intro h
    simp [LinkFromArticle.resolve_from, h]
  · intro r hr
    have hc := resolve_from_ok_cases l base r hr
    refine ⟨hc.1, ?_⟩
    by_contra hne
    have hfalse : strStartsWith (effectiveScheme l base) "http" = false := by
      cases hyp : strStartsWith (effectiveScheme l base) "http" with
      | false => rfl
      | true => exact absurd hyp hne
    have hnone : l.resolve_from base = .ok none := by
      simp [LinkFromArticle.resolve_from, hfalse]
    rw [hnone] at hr
    simp at hr

/-- Witness for `resolve_from_scheme_filter`: at the link `mailto:a@b` (scheme
`mailto`, no netloc, path `a@b`) against base `https://base/x`, the effective
scheme is `mailto`, the prefix test fails, and resolution rejects. -/
theorem resolve_from_scheme_filter_witness :
    LinkFromArticle.resolve_from ⟨some "mailto", none, some "a@b"⟩
      (pyUrlparse "https://base/x") = .ok none := by
  exact (resolve_from_scheme_filter ⟨some "mailto", none, some "a@b"⟩
    (pyUrlparse "https://base/x")).1 (by decide)

/-- C9: if the base URL has a non-empty netloc and any link carrying a netloc
has a path that is empty or starts with `/`, then `resolve_from` never fails
an assertion (it returns `.ok`), and every `ResolvedSubLink` it constructs
satisfies the constructor invariant: non-empty scheme and netloc, path
starting with `/`. -/
theorem resolve_from_no_assertion (l : LinkFromArticle) (base : PyParseResult)
    (hbn : base.netloc ≠ "")
    (hlp : pyTruthy l.netloc = true → pyTruthy l.path = true →
      strStartsWith (l.path.getD "") "/" = true) :
    (∃ o, l.resolve_from base = .ok o) ∧
    (∀ r : ResolvedSubLink, l.resolve_from base = .ok (some r) →
      r.scheme ≠ "" ∧ r.netloc ≠ "" ∧ strStartsWith r.path "/" = true) := by
  constructor
  · by_cases h1 : strStartsWith (effectiveScheme l base) "http" = true
    · have hsch : strIsEmpty (effectiveScheme l base) = false :=
        strIsEmpty_eq_false_of_http _ h1
      by_cases h2 : pyTruthy l.netloc = true
      · have hnl : strIsEmpty (l.netloc.getD "") = false := pyTruthy_getD _ h2
        by_cases h3 : pyTruthy l.path = true
        · have hsl := hlp h2 h3
          refine ⟨some ⟨effectiveScheme l base, l.netloc.getD "", l.path.getD ""⟩, ?_⟩
          simp [LinkFromArticle.resolve_from, mkResolvedSubLink, h1, h2, h3, hsl, hsch, hnl]
        · refine ⟨some ⟨effectiveScheme l base, l.netloc.getD "", "/"⟩, ?_⟩
          have h3f : pyTruthy l.path = false := by simpa using h3
          have hslash : strStartsWith "/" "/" = true := by decide
          simp [LinkFromArticle.resolve_from, mkResolvedSubLink, h1, h2, h3f, hsch, hnl, hslash]
      · have h2f : pyTruthy l.netloc = false := by simpa using h2
        have hbnl : strIsEmpty base.netloc = false := strIsEmpty_eq_false base.netloc hbn
        by_cases h3 : pyTruthy l.path = true
        · by_cases h4 : strStartsWith (l.path.getD "") "/" = true
          · refine ⟨some ⟨effectiveScheme l base, base.netloc, l.path.getD ""⟩, ?_⟩
            simp [LinkFromArticle.resolve_from, mkResolvedSubLink, h1, h2f, h3, h4, hsch, hbnl]
          · have h4f : strStartsWith (l.path.getD "") "/" = false := by simpa using h4
            refine ⟨some ⟨effectiveScheme l base, base.netloc,
              "/" ++ posixJoin (posixDirname base.path) (l.path.getD "")⟩, ?_⟩
            have h5 := strStartsWith_slash_append (posixJoin (posixDirname base.path) (l.path.getD ""))
            simp [LinkFromArticle.resolve_from, mkResolvedSubLink, h1, h2f, h3, h4f, hsch, hbnl, h5]
        · have h3f : pyTruthy l.path = false := by simpa using h3
          refine ⟨none, ?_⟩
          simp [LinkFromArticle.resolve_from, h1, h2f, h3f]
    · have h1f : strStartsWith (effectiveScheme l base) "http" = false := by simpa using h1
      refine ⟨none, ?_⟩
      simp [LinkFromArticle.resolve_from, h1f]
  · intro r hr
    have hc := resolve_from_ok_cases l base r hr
    exact ⟨strIsEmpty_false_ne _ hc.2.1, strIsEmpty_false_ne _ hc.2.2.1, hc.2.2.2⟩

/-- Witness for `resolve_from_no_assertion`: the root-relative link `/a/b`
against base `https://h/p/q` resolves without assertion failure to
`{https, h, /a/b}`, whose fields satisfy the invariant. -/
theorem resolve_from_no_assertion_witness :
    (∃ o, LinkFromArticle.resolve_from ⟨none, none, some "/a/b"⟩
      (pyUrlparse "https://h/p/q") = .ok o) ∧
    (∀ r : ResolvedSubLink,
      LinkFromArticle.resolve_from ⟨none, none, some "/a/b"⟩
        (pyUrlparse "https://h/p/q") = .ok (some r) →
      r.scheme ≠ "" ∧ r.netloc ≠ "" ∧ strStartsWith r.path "/" = true) := by
  exact resolve_from_no_assertion ⟨none, none, some "/a/b"⟩ (pyUrlparse "https://h/p/q")
    (by decide) (by intro h _; exact absurd h (by decide))

theorem strIsEmpty_iff (s : String) : strIsEmpty s = true ↔ s = "" := by
  constructor
  · intro h
    by_contra hne
    rw [strIsEmpty_eq_false s hne] at h
    exact Bool.noConfusion h
  · intro h
    subst h
    rfl

theorem listContains_nil (hay : List Char) : listContains hay [] = true := by
  cases hay with
  | nil => rfl
  | cons c t => simp [listContains, List.isPrefixOf]

theorem listContains_append (s n t : List Char) :
    listContains (s ++ (n ++ t)) n = true := by
  induction s with
  | nil =>
    rw [List.nil_append]
    cases n with
    | nil => exact listContains_nil t
    | cons c n2 =>
      have hpre : (c :: n2).isPrefixOf ((c :: n2) ++ t) = true :=
        List.isPrefixOf_iff_prefix.mpr (List.prefix_append (c :: n2) t)
      rw [List.cons_append]
      simp only [listContains]
      rw [← List.cons_append, hpre, Bool.true_or]
  | cons c cs ih =>
    rw [List.cons_append]
    simp only [listContains]
    rw [ih, Bool.or_true]

/-- C2 (amended): when the response carries a Content-Type header and the
metadata date parse does not raise, article assembly returns a rejection
(`.ok none`) exactly when one of the validity checks is unmet — content type
not HTML, title missing or equal to the 'Page Not Found' sentinel, empty
author list, unresolved timestamp, or empty body text — and when all checks
pass it returns a record whose publish date is the selected timestamp, with
the selection preferring a parseable truthy metadata `published_time` over
the extractor's heuristic date; however assembly is not rejection-only: it
raises `KeyError` on a response without a Content-Type header and
`ParserError` on an unparseable truthy metadata `published_time` reached
after the earlier checks succeed. -/
theorem from_response_spec (dparse : String → Option Nat) (resp : PyResponse)
    (art : PyArticle) (links : List ResolvedSubLink) :
    (∀ ct md, resp.content_type = some ct → mostSpecificDate dparse art = .ok md →
      (NewsArticle.from_response dparse resp art links = .ok none ↔
        (strStartsWith ct "text/html" = false ∨ art.title = "" ∨
          art.title = PAGE_NOT_FOUND_TITLE_MARKER ∨ art.authors = [] ∨
          md = none ∨ art.text = ""))) ∧
    (∀ a, NewsArticle.from_response dparse resp art links = .ok (some a) →
      mostSpecificDate dparse art = .ok (some a.publish_date)) ∧
    (∀ ds d, art.meta_published_time = some ds → ds ≠ "" → dparse ds = some d →
      mostSpecificDate dparse art = .ok (some d)) ∧
    (resp.content_type = none →
      NewsArticle.from_response dparse resp art links = .error "KeyError: Content-Type") ∧
    (∀ ct ds, resp.content_type = some ct → strStartsWith ct "text/html" = true →
      art.title ≠ "" → art.title ≠ PAGE_NOT_FOUND_TITLE_MARKER → art.authors ≠ [] →
      art.meta_published_time = some ds → ds ≠ "" → dparse ds = none →
      NewsArticle.from_response dparse resp art links =
        .error "ParserError: dateutil.parser.parse") := by
  refine ⟨?_, ?_, ?_, ?_, ?_⟩
  · intro ct md hct hmd
    rcases md with _ | d
    · unfold NewsArticle.from_response
      simp only [hct, hmd]
      split_ifs with h1 h2 h3
      all_goals simp_all [strIsEmpty_iff, List.isEmpty_iff]
    · unfold NewsArticle.from_response
      simp only [hct, hmd]
      split_ifs with h1 h2 h3 h4
      all_goals try simp_all [strIsEmpty_iff, List.isEmpty_iff]
      all_goals tauto
  · intro a ha
    unfold NewsArticle.from_response at ha
    rcases hct : resp.content_type with _ | ct
    · simp only [hct] at ha
      exact Except.noConfusion ha
    · simp only [hct] at ha
      rcases hmd : mostSpecificDate dparse art with e | md
      · simp only [hmd] at ha
        split_ifs at ha
        all_goals exact absurd ha (by simp)
      · rcases md with _ | d
        · simp only [hmd] at ha
          split_ifs at ha
          all_goals exact absurd ha (by simp)
        · simp only [hmd] at ha
          split_ifs at ha
          all_goals simp only [Except.ok.injEq, Option.some.injEq] at ha
          all_goals try exact Option.noConfusion ha
          subst ha
          rfl
  · intro ds d hds hne hdp
    simp [mostSpecificDate, hds, strIsEmpty_eq_false ds hne, hdp]
  · intro hnone
    simp [NewsArticle.from_response, hnone]
  · intro ct ds hct hhtml htitle hmarker hauth hds hne hdp
    have ht1 : strIsEmpty art.title = false := strIsEmpty_eq_false _ htitle
    have ht2 : (art.title == PAGE_NOT_FOUND_TITLE_MARKER) = false := by
      simp [hmarker]
    have hauth2 : art.authors.isEmpty = false := by
      cases harr : art.authors with
      | nil => exact absurd harr hauth
      | cons x xs => rfl
    have hmd : mostSpecificDate dparse art = .error "ParserError: dateutil.parser.parse" := by
      simp [mostSpecificDate, hds, strIsEmpty_eq_false ds hne, hdp]
    simp [NewsArticle.from_response, hct, hhtml, ht1, ht2, hauth2, hmd]

/-- Witness for `from_response_spec`: with a truthy metadata published_time
`'2020'` and a parser returning the string length, the selected timestamp is
the parsed metadata value `4`, not the extractor's heuristic `99`; with a
parser that fails, the same article after passing the earlier checks raises
`ParserError`. -/
theorem from_response_spec_witness :
    mostSpecificDate (fun s => some s.data.length)
      ⟨"T", ["au"], some 99, some "2020", "body", [], none, []⟩ = .ok (some 4) ∧
    NewsArticle.from_response (fun _ => none)
      ⟨some "text/html", "https://e/a", "e"⟩
      ⟨"T", ["au"], some 99, some "garbage", "body", [], none, []⟩ [] =
      .error "ParserError: dateutil.parser.parse" :=
  ⟨(from_response_spec (fun s => some s.data.length) ⟨some "text/html", "https://e/a", "e"⟩
      ⟨"T", ["au"], some 99, some "2020", "body", [], none, []⟩ []).2.2.1 "2020" 4 rfl
      (by decide) rfl,
    (from_response_spec (fun _ => none) ⟨some "text/html", "https://e/a", "e"⟩
      ⟨"T", ["au"], some 99, some "garbage", "body", [], none, []⟩ []).2.2.2.2 "text/html"
      "garbage" rfl (by decide) (by decide) (by decide) (by decide) rfl (by decide) rfl⟩

/-- C2 (counterexample to the claim as stated): assembly does not always turn
an unmet check into a rejection — on a response lacking the Content-Type
header it raises `KeyError`, and on an unparseable truthy metadata
published_time it raises `ParserError`; neither is the rejection value. -/
theorem from_response_raise_paths :
    NewsArticle.from_response (fun s => some s.data.length)
      ⟨none, "https://e/a", "e"⟩
      ⟨"T", ["au"], some 99, none, "body", [], none, []⟩ [] =
      .error "KeyError: Content-Type" ∧
    NewsArticle.from_response (fun _ => none)
      ⟨some "text/html", "https://e/a", "e"⟩
      ⟨"T", ["au"], some 99, some "garbage", "body", [], none, []⟩ [] =
      .error "ParserError: dateutil.parser.parse" ∧
    (Except.error "KeyError: Content-Type" :
      Except String (Option NewsArticle)) ≠ .ok none :=
  ⟨rfl, rfl, fun h => Except.noConfusion h⟩

/-- C4: the drainer never yields a response whose final URL's host is the
platform domain: the `TWITTER_DOMAIN in resp.url` substring test discards at
least every response whose URL contains its own host when that host is
`twitter.com`. -/
theorem drainer_never_yields_platform_host (outcomes : List FetchOutcome)
    (r : PyResponse) (hmem : r ∈ drainSurvivors outcomes)
    (hhost : r.host.data <:+: r.url.data) :
    r.host ≠ TWITTER_DOMAIN := by
  intro heq
  obtain ⟨o, ho, hfo⟩ := List.mem_filterMap.mp hmem
  have hfilter : pyIn TWITTER_DOMAIN r.url = false := by
    cases o with
    | sslError => simp at hfo
    | ok resp =>
      by_cases hin : pyIn TWITTER_DOMAIN resp.url = true
      · simp [hin] at hfo
      · have hinf : pyIn TWITTER_DOMAIN resp.url = false := by simpa using hin
        simp only [hinf] at hfo
        obtain rfl : resp = r := by simpa using hfo
        exact hinf
  rw [heq] at hhost
  obtain ⟨s, t, hst⟩ := hhost
  have htrue : pyIn TWITTER_DOMAIN r.url = true := by
    unfold pyIn
    rw [← hst, List.append_assoc]
    exact listContains_append s TWITTER_DOMAIN.data t
  rw [htrue] at hfilter
  exact Bool.noConfusion hfilter

/-- Witness for `drainer_never_yields_platform_host`: a surviving response
with host `example.com` (whose URL contains that host) has a host different
from the platform domain. -/
theorem drainer_never_yields_platform_host_witness :
    ("example.com" : String) ≠ TWITTER_DOMAIN :=
  drainer_never_yields_platform_host
    [FetchOutcome.ok ⟨some "text/html", "https://example.com/a", "example.com"⟩]
    ⟨some "text/html", "https://example.com/a", "example.com"⟩
    (by decide)
    ⟨"https://".data, "/a".data, by decide⟩

/-- C5: the fetch queue has fixed capacity 50 (the code's
`queue.Queue(maxsize=50)`): every queue content reachable by puts and gets
from empty holds at most 50 handles; a `put` is disabled exactly at capacity
(the producer blocks) until a `get` re-enables it, and a `get` is disabled on
the empty queue (the consumer blocks) until a `put` re-enables it. -/
theorem bounded_fetch_queue_spec :
    (∀ q : List Nat, QueueReachable FETCH_QUEUE_CAPACITY q →
      q.length ≤ FETCH_QUEUE_CAPACITY) ∧
    (∀ (q q' : List Nat) (h : Nat), q.length = FETCH_QUEUE_CAPACITY →
      ¬QueueStep FETCH_QUEUE_CAPACITY q (.put h) q') ∧
    (∀ (q' : List Nat) (h : Nat), ¬QueueStep FETCH_QUEUE_CAPACITY [] (.get h) q') ∧
    (∀ (q q' : List Nat) (h h2 : Nat), q.length = FETCH_QUEUE_CAPACITY →
      QueueStep FETCH_QUEUE_CAPACITY q (.get h) q' →
      QueueStep FETCH_QUEUE_CAPACITY q' (.put h2) (q' ++ [h2])) ∧
    (∀ (q' : List Nat) (h : Nat), QueueStep FETCH_QUEUE_CAPACITY [] (.put h) q' →
      QueueStep FETCH_QUEUE_CAPACITY q' (.get h) []) := by
  refine ⟨?_, ?_, ?_, ?_, ?_⟩
  · intro q hq
    induction hq with
    | refl => simp
    | tail _ hstep ih =>
      obtain ⟨lab, hstep⟩ := hstep
      cases hstep with
      | put h q hlt => simpa using hlt
      | get h q => simp at ih ⊢; omega
  · intro q q' h hfull hstep
    cases hstep with
    | put _ _ hlt => omega
  · intro q' h hstep
    cases hstep
  · intro q q' h h2 hfull hstep
    cases hstep with
    | get _ _ =>
      apply QueueStep.put
      simp at hfull
      omega
  · intro q' h hstep
    cases hstep with
    | put _ _ _ => exact QueueStep.get h []

/-- Witness for `bounded_fetch_queue_spec`: the one-element queue reached by a
single put respects the bound, and a put is disabled on a queue of 50
handles. -/
theorem bounded_fetch_queue_spec_witness :
    ([1] : List Nat).length ≤ FETCH_QUEUE_CAPACITY ∧
    ¬QueueStep FETCH_QUEUE_CAPACITY (List.replicate 50 0) (.put 7)
      (List.replicate 50 0 ++ [7]) :=
  ⟨bounded_fetch_queue_spec.1 [1]
      (Relation.ReflTransGen.single ⟨QLabel.put 1, QueueStep.put 1 [] (by decide)⟩),
    bounded_fetch_queue_spec.2.1 (List.replicate 50 0) (List.replicate 50 0 ++ [7]) 7
      (by decide)⟩

/-- C6: a certificate/TLS transport failure is silently discarded: it never
survives filtering, and removing it from a batch leaves the yielded article
sequence unchanged — it neither surfaces as an article nor terminates the
sequence. -/
theorem drainer_drops_ssl_errors :
    (∀ (assemble : PyResponse → Option NewsArticle) (xs ys : List FetchOutcome),
      drainYields assemble (xs ++ FetchOutcome.sslError :: ys) =
        drainYields assemble (xs ++ ys)) ∧
    drainSurvivors [FetchOutcome.sslError] = [] := by
  refine ⟨?_, rfl⟩
  intro assemble xs ys
  unfold drainYields drainSurvivors
  rw [List.filterMap_append, List.filterMap_append]
  simp

/-- C7: each consumer iteration's batch is the entire currently-available
queue content when any is available (all removed without blocking), and is
exactly the single blockingly-popped handle otherwise; the batch is never
empty, so the loop never busy-spins. -/
theorem collectBatch_spec :
    (∀ (available : List Nat) (next : Nat), collectBatch available next ≠ []) ∧
    (∀ (available : List Nat) (next : Nat), available ≠ [] →
      collectBatch available next = available) ∧
    (∀ next : Nat, collectBatch ([] : List Nat) next = [next]) := by
  refine ⟨?_, ?_, fun next => rfl⟩
  · intro av next
    cases av with
    | nil => simp [collectBatch]
    | cons a t => simp [collectBatch]
  · intro av next hne
    cases av with
    | nil => exact absurd rfl hne
    | cons a t => simp [collectBatch]

/-- Witness for `collectBatch_spec`: with handles 5 and 7 available the batch
is exactly those; with nothing available it is the single blocking pop. -/
theorem collectBatch_spec_witness :
    collectBatch [5, 7] 9 = [5, 7] ∧ collectBatch ([] : List Nat) 9 = [9] :=
  ⟨collectBatch_spec.2.1 [5, 7] 9 (by decide), collectBatch_spec.2.2 9⟩

/-- C8 (amended): extracting t.co links succeeds exactly when every href that
does not start with `/` carries the `https://t.co/` prefix; every
`/`-prefixed href — including a protocol-relative `//host/x` href, which
therefore never reaches the constructor assertion — is skipped as internal,
and any other href without the prefix (e.g. an absolute link to another
domain or a fragment link) aborts extraction with the constructor's
assertion failure. -/
theorem extract_t_co_urls_spec :
    (∀ hrefs, (∃ us, extract_t_co_urls hrefs = .ok us) ↔
      ∀ href ∈ hrefs, strStartsWith href "/" = true ∨
        strStartsWith href TWEET_SHORTENED_LINK_BASE = true) ∧
    (∀ href rest, strStartsWith href "/" = true →
      extract_t_co_urls (href :: rest) = extract_t_co_urls rest) ∧
    (∀ href rest, strStartsWith href "/" = false →
      strStartsWith href TWEET_SHORTENED_LINK_BASE = false →
      extract_t_co_urls (href :: rest) =
        .error "AssertionError: TwitterSearchShortenedUrl.__post_init__") ∧
    extract_t_co_urls ["https://example.com/x"] =
      .error "AssertionError: TwitterSearchShortenedUrl.__post_init__" := by
  refine ⟨?_, ?_, ?_, rfl⟩
  · intro hrefs
    induction hrefs with
    | nil => simp [extract_t_co_urls]
    | cons h t ih =>
      constructor
      · rintro ⟨us, hus⟩ href hmem
        unfold extract_t_co_urls at hus
        by_cases h1 : strStartsWith h "/" = true
        · rw [if_pos h1] at hus
          rcases List.mem_cons.mp hmem with heq | hmem2
          · subst heq
            exact Or.inl h1
          · exact (ih.mp ⟨us, hus⟩) href hmem2
        · rw [if_neg h1] at hus
          by_cases h2 : strStartsWith h TWEET_SHORTENED_LINK_BASE = true
          · unfold mkShortenedUrl at hus
            rw [if_pos h2] at hus
            rcases hrest : extract_t_co_urls t with e | us2 <;> rw [hrest] at hus
            · exact absurd hus (by simp)
            · rcases List.mem_cons.mp hmem with heq | hmem2
              · subst heq
                exact Or.inr h2
              · exact (ih.mp ⟨us2, hrest⟩) href hmem2
          · unfold mkShortenedUrl at hus
            rw [if_neg h2] at hus
            exact absurd hus (by simp)
      · intro hall
        by_cases h1 : strStartsWith h "/" = true
        · obtain ⟨us, hus⟩ := ih.mpr (fun x hx => hall x (List.mem_cons_of_mem _ hx))
          exact ⟨us, by unfold extract_t_co_urls; rw [if_pos h1]; exact hus⟩
        · have h2 : strStartsWith h TWEET_SHORTENED_LINK_BASE = true := by
            rcases hall h (List.mem_cons_self h t) with hc | hc
            · exact absurd hc h1
            · exact hc
          obtain ⟨us, hus⟩ := ih.mpr (fun x hx => hall x (List.mem_cons_of_mem _ hx))
          refine ⟨⟨h⟩ :: us, ?_⟩
          unfold extract_t_co_urls mkShortenedUrl
          rw [if_neg h1, if_pos h2, hus]
  · intro href rest h1
    simp only [extract_t_co_urls, h1, if_true]
  · intro href rest h1 h2
    simp [extract_t_co_urls, mkShortenedUrl, h1, h2]

/-- C8 (counterexample to the claim as stated): a protocol-relative href such
as `//other.example/x` starts with `/`, so extraction skips it as internal
and succeeds — it does not trigger the constructor assertion even though it
lacks the t.co prefix. -/
theorem extract_t_co_urls_skips_protocol_relative :
    extract_t_co_urls ["//other.example/x"] = .ok [] ∧
    strStartsWith "//other.example/x" "/" = true ∧
    strStartsWith "//other.example/x" TWEET_SHORTENED_LINK_BASE = false :=
  ⟨rfl, rfl, rfl⟩

/-- Witness for `extract_t_co_urls_spec`: a page whose hrefs are an internal
link and a t.co link extracts successfully; an internal href is skipped; a
non-t.co external href aborts with the assertion failure. -/
theorem extract_t_co_urls_spec_witness :
    (∃ us, extract_t_co_urls ["/internal", "https://t.co/abc"] = .ok us) ∧
    extract_t_co_urls ("/x" :: ["https://t.co/a"]) =
      extract_t_co_urls ["https://t.co/a"] ∧
    extract_t_co_urls ("https://other/" :: []) =
      .error "AssertionError: TwitterSearchShortenedUrl.__post_init__" :=
  ⟨(extract_t_co_urls_spec.1 _).mpr (by decide),
    extract_t_co_urls_spec.2.1 "/x" ["https://t.co/a"] (by decide),
    extract_t_co_urls_spec.2.2.1 "https://other/" [] (by decide) (by decide)⟩

/-- C10: `parse_url` keeps only the scheme, netloc and path components of the
parsed URL, discarding params, query and fragment; concretely, the link
`https://h/p?x=1#f` (whose parse has query `x=1` and fragment `f`) resolves to
`{https, h, /p}`, and the URL rebuilt by `into_url` is `https://h/p`. -/
theorem parse_url_drops_query_params_fragment :
    (∀ url, LinkFromArticle.parse_url url =
      linkOfTriple (pyUrlparse url).scheme (pyUrlparse url).netloc (pyUrlparse url).path) ∧
    (pyUrlparse "https://h/p?x=1#f").query = "x=1" ∧
    (pyUrlparse "https://h/p?x=1#f").fragment = "f" ∧
    LinkFromArticle.parse_url "https://h/p?x=1#f" =
      some ⟨some "https", some "h", some "/p"⟩ ∧
    ((LinkFromArticle.parse_url "https://h/p?x=1#f").map
        (fun l => l.resolve_from (pyUrlparse "https://other/base")) =
      some (.ok (some ⟨"https", "h", "/p"⟩))) ∧
    ResolvedSubLink.into_url ⟨"https", "h", "/p"⟩ = "https://h/p" := by
  exact ⟨fun url => rfl, rfl, rfl, rfl, rfl, rfl⟩
